import Mathlib

/-!
Shallow embedding of the PQs repository (pq_monitor.py, all_hands_reminder.py,
config.py, qu-monitor/qu_monitor.py, qu-monitor/config.py) and proofs about the
row-classification / notification-deduplication engine described in its
specification.

Conventions of the embedding:
* Python strings become Lean `String`; a cell read `row[i].strip() if len(row) > i else ''`
  becomes `pyStrip (row.getD i "")`.
* `datetime.strptime` with the repository's fixed date-format lists becomes an
  executable matcher over `List Char` that mirrors CPython's `TimeRE` regexes
  (ordered alternatives, anchored match, full consumption, calendar validation).
* A Python `datetime` value is split into the aspects the code uses: a calendar
  `Date`, seconds-of-day, a weekday number, and (for ledger arithmetic) a wall
  clock plus optional UTC-offset (`PyDateTime`).
* Fallible code returns `Except PyErr`; the undefined name `true` in
  `NotificationState.should_notify` (pq_monitor.py line 88) is a `NameError`.
-/

namespace PQs

/-! ## Python-style string primitives -/

/-- Whitespace characters recognized by Python's `str.strip()` / `str.split()`
for the ASCII range (space, tab, newline, carriage return, vertical tab, form feed). -/
def pyIsSpace (c : Char) : Bool :=
  c = ' ' || c = '\t' || c = '\n' || c = '\r' || c = '\x0b' || c = '\x0c'

/-- Strip leading and trailing whitespace from a character list. -/
def stripChars (cs : List Char) : List Char :=
  ((cs.dropWhile pyIsSpace).reverse.dropWhile pyIsSpace).reverse

/-- Python `str.strip()`. -/
def pyStrip (s : String) : String := ⟨stripChars s.data⟩

/-- Python `str.lower()` (ASCII, which covers every string the monitors compare). -/
def pyLower (s : String) : String := ⟨s.data.map Char.toLower⟩

/-- Python `str.upper()` (ASCII). -/
def pyUpper (s : String) : String := ⟨s.data.map Char.toUpper⟩

/-- Python `str.replace(',', ' ')`, as used by `QUMonitor.get_first_initials`. -/
def pyReplaceCommaSpace (s : String) : String :=
  ⟨s.data.map (fun c => if c = ',' then ' ' else c)⟩

/-- Helper for `pySplit`: accumulate the current token while scanning. -/
def pySplitAux : List Char → List Char → List String
  | [], acc => if acc.isEmpty then [] else [⟨acc.reverse⟩]
  | c :: cs, acc =>
    if pyIsSpace c then
      if acc.isEmpty then pySplitAux cs [] else ⟨acc.reverse⟩ :: pySplitAux cs []
    else
      pySplitAux cs (c :: acc)

/-- Python `str.split()` with no argument: split on whitespace runs, dropping
empty tokens. -/
def pySplit (s : String) : List String := pySplitAux s.data []

/-! ## Calendar dates -/

/-- A calendar date, as produced by `datetime.strptime(..).date()`. -/
structure Date where
  year : Nat
  month : Nat
  day : Nat
deriving DecidableEq, Repr

/-- Gregorian leap-year rule, matching Python's `calendar`/`datetime` validation. -/
def isLeapYear (y : Nat) : Bool :=
  (y % 4 = 0 && y % 100 ≠ 0) || y % 400 = 0

/-- Days in a month, used by `datetime`'s constructor validation. -/
def daysInMonth (y m : Nat) : Nat :=
  if m = 2 then (if isLeapYear y then 29 else 28)
  else if m = 4 || m = 6 || m = 9 || m = 11 then 30
  else 31

/-- A date `datetime.date` would accept (Python's MINYEAR = 1, MAXYEAR = 9999). -/
def validDate (dt : Date) : Bool :=
  1 ≤ dt.year && dt.year ≤ 9999 &&
  1 ≤ dt.month && dt.month ≤ 12 &&
  1 ≤ dt.day && dt.day ≤ daysInMonth dt.year dt.month

/-- Strict chronological order on calendar dates (`date.__lt__`). -/
def dateLt (a b : Date) : Bool :=
  a.year < b.year ||
  (a.year = b.year && (a.month < b.month ||
    (a.month = b.month && a.day < b.day)))

/-- Civil day number of a valid date (days since 0000-03-01), the standard
`days_from_civil` computation.  Two valid dates that are `k` calendar days apart
have day numbers differing by `k`, which is what `timedelta(days=...)`
arithmetic on naive `datetime`s needs. -/
def dayNumber (dt : Date) : Nat :=
  let y := if dt.month ≤ 2 then dt.year - 1 else dt.year
  let era := y / 400
  let yoe := y % 400
  let mp := if 2 < dt.month then dt.month - 3 else dt.month + 9
  let doy := (153 * mp + 2) / 5 + dt.day - 1
  let doe := yoe * 365 + yoe / 4 - yoe / 100 + doy
  era * 146097 + doe

/-! ## `datetime.strptime` for the repository's fixed format lists

CPython's `_strptime` compiles each directive into a regex fragment and matches
the whole (stripped) input anchored at the start, rejecting leftover text.  The
directives used by the repository are `%Y %y %m %d %b %B`, literal `-`, `/`,
`,`, and blanks (which match a whitespace run).  Each numeric directive below
reproduces the ordered alternatives of the corresponding `TimeRE` pattern. -/

/-- One directive of a compiled `strptime` format string. -/
inductive Directive where
  | lit (c : Char)
  | blank
  | dY
  | dy
  | dm
  | dd
  | db
  | dB
deriving DecidableEq, Repr

/-- Numeric value of a decimal digit character. -/
def digitVal (c : Char) : Nat := c.toNat - 48

/-- `%Y` : exactly four decimal digits (TimeRE pattern `\d\d\d\d`). -/
def matchY : List Char → Option (Nat × List Char)
  | a :: b :: c :: d :: rest =>
    if a.isDigit && b.isDigit && c.isDigit && d.isDigit then
      some (digitVal a * 1000 + digitVal b * 100 + digitVal c * 10 + digitVal d, rest)
    else none
  | _ => none

/-- `%y` : two digits, mapped to 2000-2068 / 1969-1999 as in `_strptime`. -/
def matchy : List Char → Option (Nat × List Char)
  | a :: b :: rest =>
    if a.isDigit && b.isDigit then
      let v := digitVal a * 10 + digitVal b
      some (if v ≤ 68 then 2000 + v else 1900 + v, rest)
    else none
  | _ => none

/-- `%m` : TimeRE pattern `1[0-2]|0[1-9]|[1-9]`, alternatives in that order. -/
def matchm : List Char → Option (Nat × List Char)
  | a :: b :: rest =>
    if a = '1' && ('0' ≤ b && b ≤ '2') then some (10 + digitVal b, rest)
    else if a = '0' && ('1' ≤ b && b ≤ '9') then some (digitVal b, rest)
    else if '1' ≤ a && a ≤ '9' then some (digitVal a, b :: rest)
    else none
  | [a] => if '1' ≤ a && a ≤ '9' then some (digitVal a, []) else none
  | [] => none

/-- `%d` : TimeRE pattern `3[0-1]|[1-2]\d|0[1-9]|[1-9]| [1-9]`, in that order. -/
def matchd : List Char → Option (Nat × List Char)
  | a :: b :: rest =>
    if a = '3' && ('0' ≤ b && b ≤ '1') then some (30 + digitVal b, rest)
    else if ('1' ≤ a && a ≤ '2') && b.isDigit then some (digitVal a * 10 + digitVal b, rest)
    else if a = '0' && ('1' ≤ b && b ≤ '9') then some (digitVal b, rest)
    else if '1' ≤ a && a ≤ '9' then some (digitVal a, b :: rest)
    else if a = ' ' && ('1' ≤ b && b ≤ '9') then some (digitVal b, rest)
    else none
  | [a] => if '1' ≤ a && a ≤ '9' then some (digitVal a, []) else none
  | [] => none

/-- Abbreviated month names of the C locale, as `_strptime` lists them. -/
def monthAbbrevs : List (String × Nat) :=
  [("jan", 1), ("feb", 2), ("mar", 3), ("apr", 4), ("may", 5), ("jun", 6),
   ("jul", 7), ("aug", 8), ("sep", 9), ("oct", 10), ("nov", 11), ("dec", 12)]

/-- Full month names, longest first as `_strptime` sorts them for its regex
(no name is a prefix of another, so the order is inessential). -/
def monthFulls : List (String × Nat) :=
  [("september", 9), ("november", 11), ("december", 12), ("february", 2),
   ("january", 1), ("october", 10), ("august", 8), ("april", 4), ("march", 3),
   ("june", 6), ("july", 7), ("may", 5)]

/-- Case-insensitive match of a lowercase pattern against the front of the
input; returns the rest of the input on success. -/
def matchCaseless : List Char → List Char → Option (List Char)
  | [], rest => some rest
  | _ :: _, [] => none
  | p :: ps, c :: cs => if Char.toLower c = p then matchCaseless ps cs else none

/-- Match a month name from a table (`%b` / `%B`, compiled with IGNORECASE). -/
def matchMonthName (table : List (String × Nat)) (cs : List Char) :
    Option (Nat × List Char) :=
  match table with
  | [] => none
  | (name, v) :: rest =>
    match matchCaseless name.data cs with
    | some cs' => some (v, cs')
    | none => matchMonthName rest cs

/-- Fields recovered from a format match (every repository format sets all three). -/
structure DateFields where
  year : Option Nat := none
  month : Option Nat := none
  day : Option Nat := none
deriving Repr

/-- Run a directive list over the input, anchored; both lists must be consumed
(leftover input makes `strptime` raise, which the callers treat as a failed
format). -/
def runFormat : List Directive → List Char → DateFields → Option DateFields
  | [], [], acc => some acc
  | [], _ :: _, _ => none
  | dir :: dirs, cs, acc =>
    match dir with
    | .lit c =>
      match cs with
      | c' :: cs' => if c' = c then runFormat dirs cs' acc else none
      | [] => none
    | .blank =>
      match cs with
      | c' :: cs' =>
        if pyIsSpace c' then runFormat dirs (cs'.dropWhile pyIsSpace) acc else none
      | [] => none
    | .dY => match matchY cs with
      | some (v, cs') => runFormat dirs cs' { acc with year := some v }
      | none => none
    | .dy => match matchy cs with
      | some (v, cs') => runFormat dirs cs' { acc with year := some v }
      | none => none
    | .dm => match matchm cs with
      | some (v, cs') => runFormat dirs cs' { acc with month := some v }
      | none => none
    | .dd => match matchd cs with
      | some (v, cs') => runFormat dirs cs' { acc with day := some v }
      | none => none
    | .db => match matchMonthName monthAbbrevs cs with
      | some (v, cs') => runFormat dirs cs' { acc with month := some v }
      | none => none
    | .dB => match matchMonthName monthFulls cs with
      | some (v, cs') => runFormat dirs cs' { acc with month := some v }
      | none => none

/-- `datetime.strptime(text, fmt).date()` for one format: match, then build the
date, failing (ValueError) when the calendar rejects it. -/
def strptimeDate (fmt : List Directive) (cs : List Char) : Option Date :=
  match runFormat fmt cs {} with
  | none => none
  | some acc =>
    match acc.year, acc.month, acc.day with
    | some y, some m, some d =>
      let dt : Date := ⟨y, m, d⟩
      if validDate dt then some dt else none
    | _, _, _ => none

/-- Try formats in list order on the stripped input, returning the first success
(the `for fmt in date_formats: try: ... except ValueError: continue` loop). -/
def tryFormats (fmts : List (List Directive)) (s : String) : Option Date :=
  let cs := stripChars s.data
  match fmts with
  | [] => none
  | fmt :: rest =>
    match strptimeDate fmt cs with
    | some d => some d
    | none => tryFormats rest s

/-- The format list of `PQMonitor._is_date_in_past` (pq_monitor.py lines 324-335). -/
def pqDateFormats : List (List Directive) :=
  [ [.dY, .lit '-', .dm, .lit '-', .dd],                         -- %Y-%m-%d
    [.dm, .lit '/', .dd, .lit '/', .dY],                         -- %m/%d/%Y
    [.dm, .lit '/', .dd, .lit '/', .dy],                         -- %m/%d/%y
    [.dd, .lit '/', .dm, .lit '/', .dY],                         -- %d/%m/%Y
    [.dd, .lit '/', .dm, .lit '/', .dy],                         -- %d/%m/%y
    [.dY, .lit '/', .dm, .lit '/', .dd],                         -- %Y/%m/%d
    [.db, .blank, .dd, .lit ',', .blank, .dY],                   -- %b %d, %Y
    [.dB, .blank, .dd, .lit ',', .blank, .dY],                   -- %B %d, %Y
    [.dd, .blank, .db, .blank, .dY],                             -- %d %b %Y
    [.dd, .blank, .dB, .blank, .dY] ]                            -- %d %B %Y

/-- The format list of `QUMonitor.parse_date` (qu_monitor.py lines 183-190). -/
def quDateFormats : List (List Directive) :=
  [ [.dm, .lit '/', .dd, .lit '/', .dY],                         -- %m/%d/%Y
    [.dY, .lit '-', .dm, .lit '-', .dd],                         -- %Y-%m-%d
    [.dm, .lit '-', .dd, .lit '-', .dY],                         -- %m-%d-%Y
    [.dd, .lit '/', .dm, .lit '/', .dY],                         -- %d/%m/%Y
    [.dm, .lit '/', .dd, .lit '/', .dy],                         -- %m/%d/%y
    [.dY, .lit '/', .dm, .lit '/', .dd] ]                        -- %Y/%m/%d

/-- The parsing part of `PQMonitor._is_date_in_past`: first matching format on
the stripped text, or "no date". -/
def parseDatePQ (s : String) : Option Date := tryFormats pqDateFormats s

/-- `QUMonitor.parse_date`: `None` for empty text, else the first matching
format of its (numeric-only) list, or `None` with a warning. -/
def quParseDate (s : String) : Option Date :=
  if s = "" then none else tryFormats quDateFormats s

/-! ## Datetimes and the reference timezone -/

/-- `PACIFIC_TZ = timezone(timedelta(hours=-8))`, in seconds. -/
def pacificOffset : Int := -28800

/-- The aspects of a Python `datetime` value that the ledger arithmetic uses:
its naive wall-clock reading in seconds and its UTC offset (`None` for a
timezone-naive value). -/
structure PyDateTime where
  wall : Int
  off : Option Int
deriving DecidableEq, Repr

/-- Absolute position of an aware datetime on the time line, in seconds;
subtracting two aware datetimes compares these. -/
def PyDateTime.absSeconds (t : PyDateTime) : Int :=
  t.wall - t.off.getD 0

/-- The aspects of `datetime.now(PACIFIC_TZ)` that `PQMonitor` reads: the
underlying datetime value, its Pacific calendar date, its time of day, and its
`weekday()` number (Monday = 0 .. Sunday = 6). -/
structure PacificNow where
  dt : PyDateTime
  date : Date
  secondsOfDay : Nat
  weekday : Nat
deriving Repr

/-- The aspects of the naive local `datetime.now()` that `QUMonitor` reads. -/
structure NaiveNow where
  date : Date
  secondsOfDay : Nat
deriving DecidableEq, Repr

/-! ## The notification ledger (`NotificationState`) -/

/-- Ledger keys used by the monitors.  In the source these are the strings
`"row_<n>"`, `"in_review_no_checker_<n>"` and `"overdue_batch"`, which never
collide; `other` covers any further string key (e.g. the all-hands weekly key). -/
inductive Key where
  | row (n : Nat)
  | inReviewNoChecker (n : Nat)
  | overdueBatch
  | other (s : String)
deriving DecidableEq, Repr

/-- The persisted state dict: key ↦ last-sent timestamp. -/
abbrev Ledger := List (Key × PyDateTime)

/-- Dict lookup. -/
def lookupKey : Ledger → Key → Option PyDateTime
  | [], _ => none
  | (k0, v0) :: rest, k => if k = k0 then some v0 else lookupKey rest k

/-- Dict store `state[key] = value` (replace in place, else append). -/
def setKey : Ledger → Key → PyDateTime → Ledger
  | [], k, v => [(k, v)]
  | (k0, v0) :: rest, k, v =>
    if k = k0 then (k0, v) :: rest else (k0, v0) :: setKey rest k v

/-- Dict delete `del state[key]` guarded by `if key in state` (idempotent). -/
def removeKey : Ledger → Key → Ledger
  | [], _ => []
  | (k0, v0) :: rest, k =>
    if k = k0 then removeKey rest k else (k0, v0) :: removeKey rest k

/-- `NotificationState.mark_notified`: store the current Pacific-aware
timestamp for the key (both variants). -/
def markNotified (st : Ledger) (k : Key) (now : PyDateTime) : Ledger :=
  setKey st k now

/-- `NotificationState.clear_row` (pq_monitor.py lines 96-101). -/
def clearRow (st : Ledger) (k : Key) : Ledger :=
  removeKey st k

/-- `NotificationState.should_notify` of all_hands_reminder.py (lines 67-81):
true when the key is absent, or when now minus the stored timestamp is at least
the interval; a stored naive timestamp gets the Pacific offset attached first. -/
def shouldNotifyAH (st : Ledger) (k : Key) (intervalSeconds : Int)
    (now : PyDateTime) : Bool :=
  match lookupKey st k with
  | none => true
  | some last =>
    let lastAware := if last.off.isNone then { last with off := some pacificOffset } else last
    decide (now.absSeconds - lastAware.absSeconds ≥ intervalSeconds)

/-- Python runtime errors surfaced by the embedding. -/
inductive PyErr where
  | nameError
deriving DecidableEq, Repr

/-- `NotificationState.should_notify` of pq_monitor.py (lines 73-88): the whole
interval computation is commented out and the body is `return true`, where
`true` is an undefined name, so every call raises `NameError`. -/
def shouldNotifyPQ (_st : Ledger) (_k : Key) (_intervalSeconds : Int) :
    Except PyErr Bool :=
  .error .nameError

/-! ## Configuration (config.py, qu-monitor/config.py) -/

/-- `USER_MAPPING`: initials ↦ Slack user id (identical in both config files). -/
def USER_MAPPING : List (String × String) :=
  [("CF", "U096E94CPSQ"), ("DI", "U02S7HKMLEQ"), ("JS", "U01UYJGCDT9"),
   ("RD", "U07B2J0JQ04"), ("CTC", "U09E4C6S5GS"), ("CC", "U01Q1DPP4UX"),
   ("JC", "U0248V5LYV6"), ("SR", "U02QMUE0ELV")]

/-- `IGNORED_INITIALS` of qu-monitor/config.py. -/
def IGNORED_INITIALS : List String := ["AH", "CC"]

/-- `START_ROW` of config.py (first data row of the PQ sheet). -/
def START_ROW : Nat := 4

/-- `STALE_DAYS` of qu-monitor/config.py. -/
def STALE_DAYS : Nat := 7

/-! ## `PQMonitor` row classification and evaluation cycle -/

/-- `PQMonitor._is_date_in_past` (pq_monitor.py lines 317-355): empty text is
never in the past; unparseable text is logged and never in the past; otherwise
compare the parsed calendar date with today's Pacific calendar date (the code
zeroes the time with `replace(...)` and compares `.date()` values). -/
def isDateInPast (s : String) (now : PacificNow) : Bool :=
  if s = "" then false
  else
    match parseDatePQ s with
    | none => false
    | some d => dateLt d now.date

/-- `row[i].strip() if len(row) > i else ''` (the preceding padding loop makes
missing trailing cells empty strings). -/
def cellAt (row : List String) (i : Nat) : String :=
  pyStrip (row.getD i "")

/-- The test `code and code in USER_MAPPING and code != 'CC'` that guards every
recipient in pq_monitor.py. -/
def knownUnignored (code : String) : Bool :=
  code ≠ "" && (USER_MAPPING.lookup code).isSome && code ≠ "CC"

/-- `overdue_items`: Slack user id ↦ list of row numbers, insertion ordered
like a Python dict. -/
abbrev ItemsMap := List (String × List Nat)

/-- `if user_id not in overdue_items: overdue_items[user_id] = [] ;
overdue_items[user_id].append(row_number)`. -/
def addOverdueItem : ItemsMap → String → Nat → ItemsMap
  | [], uid, n => [(uid, [n])]
  | (u, rs) :: rest, uid, n =>
    if uid = u then (u, rs ++ [n]) :: rest else (u, rs) :: addOverdueItem rest uid n

/-- The `should_notify` method of the ledger object, abstracted so that both
the broken pq_monitor implementation and a working one can be plugged in. -/
abbrev SNFun := Ledger → Key → Int → Except PyErr Bool

/-- Delivery collaborator: whether the Slack webhook call for a given ledger
key's message reports success (`send_notification`,
`send_in_review_missing_checker_notification`,
`send_batched_overdue_notification`). -/
abbrev Oracle := Key → Bool

/-- Output of one guarded send-and-mark section of `_process_row`. -/
structure SecOut where
  st : Ledger
  sends : List (Key × Bool)
  marks : List Key
  err : Option PyErr
deriving Repr

/-- Missing-ETA section of `_process_row` (pq_monitor.py lines 429-453): when
columns E and F are both empty and the assignee is known and not CC, send on a
weekday when `should_notify` allows, marking the key only on delivery success;
when E or F is non-empty, clear the row key unconditionally. -/
def sec1 (sn : SNFun) (oracle : Oracle) (notifInterval : Int) (now : PacificNow)
    (c e f : String) (n : Nat) (isWeekend : Bool) (st : Ledger) : SecOut :=
  if e = "" && f = "" then
    if knownUnignored c then
      if !isWeekend then
        match sn st (Key.row n) notifInterval with
        | .error er => ⟨st, [], [], some er⟩
        | .ok b =>
          if b then
            if oracle (Key.row n) then
              ⟨markNotified st (Key.row n) now.dt, [(Key.row n, true)], [Key.row n], none⟩
            else ⟨st, [(Key.row n, false)], [], none⟩
          else ⟨st, [], [], none⟩
      else ⟨st, [], [], none⟩
    else ⟨st, [], [], none⟩
  else ⟨clearRow st (Key.row n), [], [], none⟩

/-- Overdue section of `_process_row` (pq_monitor.py lines 455-479): when the
ETA cell holds a past date, contribute `(recipient, row)` to the shared batch —
the reviewer (column D) when status is "in review", the assignee (column C)
when status is neither "done" nor "in review" — gated by the cycle-wide
`should_notify_overdue` flag. -/
def sec2 (now : PacificNow) (c d e g : String) (n : Nat) (gate : Bool)
    (items : ItemsMap) : ItemsMap :=
  if e ≠ "" && isDateInPast e now then
    if pyLower g = "in review" then
      if knownUnignored d then
        if gate then
          match USER_MAPPING.lookup d with
          | some uid => addOverdueItem items uid n
          | none => items
        else items
      else items
    else if !(pyLower g = "done" || pyLower g = "in review") then
      if knownUnignored c then
        if gate then
          match USER_MAPPING.lookup c with
          | some uid => addOverdueItem items uid n
          | none => items
        else items
      else items
    else items
  else items

/-- In-review-missing-checker section of `_process_row` (pq_monitor.py lines
482-509): when status is "in review" and column D is empty, notify the known
non-CC assignee on a weekday subject to `should_notify`, marking only on
success; otherwise clear the key unconditionally. -/
def sec3 (sn : SNFun) (oracle : Oracle) (notifInterval : Int) (now : PacificNow)
    (c d g : String) (n : Nat) (isWeekend : Bool) (st : Ledger) : SecOut :=
  if pyLower g = "in review" && d = "" then
    if knownUnignored c then
      if !isWeekend then
        match sn st (Key.inReviewNoChecker n) notifInterval with
        | .error er => ⟨st, [], [], some er⟩
        | .ok b =>
          if b then
            if oracle (Key.inReviewNoChecker n) then
              ⟨markNotified st (Key.inReviewNoChecker n) now.dt,
                [(Key.inReviewNoChecker n, true)], [Key.inReviewNoChecker n], none⟩
            else ⟨st, [(Key.inReviewNoChecker n, false)], [], none⟩
          else ⟨st, [], [], none⟩
      else ⟨st, [], [], none⟩
    else ⟨st, [], [], none⟩
  else ⟨clearRow st (Key.inReviewNoChecker n), [], [], none⟩

/-- Result of `_process_row`: the ledger, the (in-place mutated) overdue batch,
the attempted sends with their success, the marked keys, and a raised error, if
any.  An error raised after the batch dict was mutated leaves the mutation in
place, as in Python. -/
structure RowOut where
  st : Ledger
  items : ItemsMap
  sends : List (Key × Bool)
  marks : List Key
  err : Option PyErr
deriving Repr

/-- `PQMonitor._process_row` (pq_monitor.py lines 413-509), over an abstract
`should_notify` method: section 1 (missing ETA), then — unless section 1
raised — section 2 (overdue batch) and section 3 (in-review missing checker). -/
def processRowGen (sn : SNFun) (oracle : Oracle) (notifInterval : Int)
    (now : PacificNow) (row : List String) (n : Nat) (items : ItemsMap)
    (gate : Bool) (isWeekend : Bool) (st : Ledger) : RowOut :=
  let c := cellAt row 2
  let d := cellAt row 3
  let e := cellAt row 4
  let f := cellAt row 5
  let g := cellAt row 6
  let r1 := sec1 sn oracle notifInterval now c e f n isWeekend st
  match r1.err with
  | some er => ⟨r1.st, items, r1.sends, r1.marks, some er⟩
  | none =>
    let items2 := sec2 now c d e g n gate items
    let r3 := sec3 sn oracle notifInterval now c d g n isWeekend r1.st
    ⟨r3.st, items2, r1.sends ++ r3.sends, r1.marks ++ r3.marks, r3.err⟩

/-- Result of one `check_and_notify` cycle. -/
structure CycleOut where
  st : Ledger
  items : ItemsMap
  sends : List (Key × Bool)
  marks : List Key
  err : Option PyErr
deriving Repr

/-- The row loop of `check_and_notify`: process rows in order with consecutive
row numbers; an exception from a row propagates to the cycle's handler, so the
remaining rows are skipped. -/
def runRows (sn : SNFun) (oracle : Oracle) (notifInterval : Int)
    (now : PacificNow) (gate isWeekend : Bool) :
    List (List String) → Nat → Ledger → ItemsMap → CycleOut
  | [], _, st, items => ⟨st, items, [], [], none⟩
  | row :: rest, n, st, items =>
    let r := processRowGen sn oracle notifInterval now row n items gate isWeekend st
    match r.err with
    | some er => ⟨r.st, r.items, r.sends, r.marks, some er⟩
    | none =>
      let out := runRows sn oracle notifInterval now gate isWeekend rest (n + 1) r.st r.items
      ⟨out.st, out.items, r.sends ++ out.sends, r.marks ++ out.marks, out.err⟩

/-- `PQMonitor.check_and_notify` (pq_monitor.py lines 357-411), over an
abstract `should_notify`: weekend test, sheet read (the rows are a parameter),
early return on no data, the shared overdue gate
`not is_weekend and should_notify("overdue_batch", ...)` — whose exception the
cycle's catch-all swallows before any row is processed — the row loop, and the
final batched send, marking the shared key only on delivery success. -/
def checkAndNotifyGen (sn : SNFun) (oracle : Oracle)
    (notifInterval overdueInterval : Int) (now : PacificNow)
    (rows : List (List String)) (st : Ledger) : CycleOut :=
  let isWeekend := now.weekday = 5 || now.weekday = 6
  if rows.isEmpty then ⟨st, [], [], [], none⟩
  else
    let gateResult : Except PyErr Bool :=
      if !isWeekend then sn st Key.overdueBatch overdueInterval else .ok false
    match gateResult with
    | .error er => ⟨st, [], [], [], some er⟩
    | .ok gate =>
      let out := runRows sn oracle notifInterval now gate isWeekend rows START_ROW st []
      match out.err with
      | some _ => out
      | none =>
        if !out.items.isEmpty && gate then
          if oracle Key.overdueBatch then
            ⟨markNotified out.st Key.overdueBatch now.dt, out.items,
              out.sends ++ [(Key.overdueBatch, true)],
              out.marks ++ [Key.overdueBatch], none⟩
          else
            ⟨out.st, out.items, out.sends ++ [(Key.overdueBatch, false)],
              out.marks, none⟩
        else out

/-- The PQ monitor's cycle with its own (broken) `should_notify`. -/
def checkAndNotifyPQ (oracle : Oracle) (notifInterval overdueInterval : Int)
    (now : PacificNow) (rows : List (List String)) (st : Ledger) : CycleOut :=
  checkAndNotifyGen shouldNotifyPQ oracle notifInterval overdueInterval now rows st

/-! ## Batched overdue message composition (`SlackNotifier`) -/

/-- Ascending sort used for `sorted(rows)` (row numbers are naturals, so the
sorted list is unique). -/
def sortedAsc (rs : List Nat) : List Nat :=
  List.insertionSort (· ≤ ·) rs

/-- The `message_parts` list built by
`SlackNotifier.send_batched_overdue_notification` (pq_monitor.py lines
211-218): one line per recipient; singular phrasing for exactly one row, plural
phrasing with the sorted, comma-joined row numbers otherwise. -/
def batchedMessageParts (items : ItemsMap) : List String :=
  items.map (fun p =>
    if p.2.length = 1 then
      "<@" ++ p.1 ++ "> Please update your PQs: row " ++ toString (p.2.headD 0) ++
        " is out of date"
    else
      "<@" ++ p.1 ++ "> Please update your PQs: rows " ++
        String.intercalate ", " ((sortedAsc p.2).map toString) ++
        " are out of date")

/-- The composed batched message (`"\n".join(message_parts)`). -/
def batchedMessage (items : ItemsMap) : String :=
  String.intercalate "\n" (batchedMessageParts items)

/-! ## QU monitor (qu-monitor/qu_monitor.py) -/

/-- `QUMonitor.get_first_initials` (lines 201-208): replace commas by spaces,
split on whitespace, take the first token uppercased, or the empty string. -/
def getFirstInitials (s : String) : String :=
  if s = "" then ""
  else
    match pySplit (pyReplaceCommaSpace s) with
    | [] => ""
    | t :: _ => pyUpper (pyStrip t)

/-- The staleness comparison of `QUMonitor.check_and_notify` (lines 227-255):
`date_obj < today - timedelta(days=STALE_DAYS)` on naive local datetimes, where
`date_obj` sits at midnight of the parsed date and the cutoff keeps today's
time of day.  Chronological comparison via civil day numbers. -/
def quStaleDate (d : Date) (now : NaiveNow) : Bool :=
  decide ((dayNumber d * 86400 : Int) <
    (dayNumber now.date * 86400 + now.secondsOfDay : Int) - STALE_DAYS * 86400)

/-- Parse-then-compare staleness check for one date cell. -/
def quIsStale (s : String) (now : NaiveNow) : Bool :=
  match quParseDate s with
  | none => false
  | some d => quStaleDate d now

/-- One iteration of the QU row loop (lines 232-260): the initials counted as
having a stale item for this row, if any.  Rows whose first initials code is
empty or ignored are skipped; unparseable dates are skipped; unknown initials
are logged, not counted. -/
def quRowContribution (row : List String) (now : NaiveNow) : Option String :=
  let initialsStr := pyStrip (row.getD 1 "")
  let dateStr := pyStrip (row.getD 2 "")
  let initials := getFirstInitials initialsStr
  if initials = "" || initials ∈ IGNORED_INITIALS then none
  else
    match quParseDate dateStr with
    | none => none
    | some d =>
      if quStaleDate d now then
        if (USER_MAPPING.lookup initials).isSome then some initials else none
      else none

/-! ## Helper lemmas about the ledger dictionary -/

theorem lookupKey_setKey (st : Ledger) (k : Key) (v : PyDateTime) (k' : Key) :
    lookupKey (setKey st k v) k' = if k' = k then some v else lookupKey st k' := by
  induction st with
  | nil => by_cases h : k' = k <;> simp [setKey, lookupKey, h]
  | cons p rest ih =>
    obtain ⟨k0, v0⟩ := p
    by_cases h0 : k = k0
    · subst h0
      by_cases h : k' = k <;> simp [setKey, lookupKey, h]
    · by_cases h : k' = k0
      · subst h
        have hne : ¬k' = k := fun hkk => h0 hkk.symm
        simp [setKey, lookupKey, h0, hne]
      · simp [setKey, lookupKey, h0, h, ih]

theorem lookupKey_removeKey (st : Ledger) (k : Key) (k' : Key) :
    lookupKey (removeKey st k) k' = if k' = k then none else lookupKey st k' := by
  induction st with
  | nil => by_cases h : k' = k <;> simp [removeKey, lookupKey, h]
  | cons p rest ih =>
    obtain ⟨k0, v0⟩ := p
    by_cases h0 : k = k0
    · subst h0
      by_cases h : k' = k
      · subst h
        simp [removeKey, lookupKey, ih]
      · simp [removeKey, lookupKey, h, ih]
    · by_cases h : k' = k0
      · subst h
        have hne : ¬k' = k := fun hkk => h0 hkk.symm
        simp [removeKey, lookupKey, h0, hne, ih]
      · simp [removeKey, lookupKey, h0, h, ih]

theorem lookupKey_markNotified (st : Ledger) (k : Key) (v : PyDateTime) (k' : Key) :
    lookupKey (markNotified st k v) k' = if k' = k then some v else lookupKey st k' :=
  lookupKey_setKey st k v k'

theorem lookupKey_clearRow (st : Ledger) (k : Key) (k' : Key) :
    lookupKey (clearRow st k) k' = if k' = k then none else lookupKey st k' :=
  lookupKey_removeKey st k k'

/-! ## Claim C1 -/

/-- Claim C1: `should_notify(key, interval)` is claimed to return true iff the
key is absent or now minus the stored last-sent time is at least the interval
(Pacific reference zone, naive timestamps assumed Pacific).  The pq_monitor.py
implementation instead has that computation commented out and executes
`return true` with the undefined name `true`, so it raises `NameError` on every
input and never returns a boolean (its own docstring and the all-hands variant
implement the claimed contract). -/
theorem claim_C1_pq_should_notify_raises (st : Ledger) (k : Key) (i : Int) :
    shouldNotifyPQ st k i = Except.error PyErr.nameError := rfl

/-! ## Claim C3 -/

/-- Claim C3: the intended ledger round trip.  With the working `should_notify`
(all_hands_reminder.py lines 67-81, the body pq_monitor.py comments out),
`mark_notified(k)` followed immediately by `should_notify(k, I)` with a
positive interval returns false, and after `clear_row(k)` every interval
returns true.  The pq_monitor.py `should_notify` instead raises `NameError`
even right after `mark_notified` (third conjunct), so the claim holds for the
intended code but not for the shipped pq variant. -/
theorem claim_C3_ledger_round_trip (st : Ledger) (k : Key) (wall : Int) (i : Int)
    (hi : 0 < i) :
    shouldNotifyAH (markNotified st k ⟨wall, some pacificOffset⟩) k i
      ⟨wall, some pacificOffset⟩ = false ∧
    (∀ i' : Int,
      shouldNotifyAH (clearRow (markNotified st k ⟨wall, some pacificOffset⟩) k) k i'
        ⟨wall, some pacificOffset⟩ = true) ∧
    shouldNotifyPQ (markNotified st k ⟨wall, some pacificOffset⟩) k i =
      Except.error PyErr.nameError := by
  refine ⟨?_, ?_, rfl⟩
  · simp [shouldNotifyAH, lookupKey_markNotified, PyDateTime.absSeconds]
    omega
  · intro i'
    simp [shouldNotifyAH, lookupKey_clearRow]

/-- Witness for C3 at a concrete key, timestamp and interval. -/
theorem claim_C3_ledger_round_trip_witness :
    0 < (3600 : Int) ∧
    shouldNotifyAH (markNotified [] (Key.other "k") ⟨0, some pacificOffset⟩)
      (Key.other "k") 3600 ⟨0, some pacificOffset⟩ = false ∧
    shouldNotifyAH
      (clearRow (markNotified [] (Key.other "k") ⟨0, some pacificOffset⟩)
        (Key.other "k")) (Key.other "k") 0 ⟨0, some pacificOffset⟩ = true ∧
    shouldNotifyPQ (markNotified [] (Key.other "k") ⟨0, some pacificOffset⟩)
      (Key.other "k") 3600 = Except.error PyErr.nameError :=
  ⟨by decide,
   (claim_C3_ledger_round_trip [] (Key.other "k") 0 3600 (by decide)).1,
   (claim_C3_ledger_round_trip [] (Key.other "k") 0 3600 (by decide)).2.1 0,
   (claim_C3_ledger_round_trip [] (Key.other "k") 0 3600 (by decide)).2.2⟩

/-! ## Claim C5 -/

/-- Claim C5 counterexample: the claim says the "is in the past" check ignores
the time of day of the current moment, but the QU variant's staleness
comparison (qu_monitor.py lines 227-255, a cited source of the claim) compares
full naive datetimes against `now - timedelta(days=7)`: on 2025-01-08 the cell
"2025-01-01" is not stale at midnight yet stale at noon, so the result depends
on the current time of day. -/
theorem claim_C5_counterexample :
    quIsStale "2025-01-01" ⟨⟨2025, 1, 8⟩, 0⟩ = false ∧
    quIsStale "2025-01-01" ⟨⟨2025, 1, 8⟩, 43200⟩ = true := by decide

/-- Claim C5 amended: the property holds for `PQMonitor._is_date_in_past`
(pq_monitor.py lines 317-355): its result depends on the current moment only
through the Pacific calendar date — every time of day (and weekday, and
underlying timestamp) gives the same answer — and a date equal to today is
never "in the past". -/
theorem claim_C5_amended (s : String) (d : Date) (dt dt' : PyDateTime)
    (t t' w w' : Nat) :
    isDateInPast s ⟨dt, d, t, w⟩ = isDateInPast s ⟨dt', d, t', w'⟩ ∧
    (parseDatePQ s = some d → isDateInPast s ⟨dt, d, t, w⟩ = false) := by
  constructor
  · rfl
  · intro h
    by_cases hs : s = ""
    · simp [isDateInPast, hs]
    · simp [isDateInPast, hs, h, dateLt]

/-- Witness for the amended C5 at "2025-12-05" evaluated on its own date. -/
theorem claim_C5_amended_witness :
    isDateInPast "2025-12-05" ⟨⟨0, some pacificOffset⟩, ⟨2025, 12, 5⟩, 0, 2⟩ =
      isDateInPast "2025-12-05" ⟨⟨99, some pacificOffset⟩, ⟨2025, 12, 5⟩, 43200, 4⟩ ∧
    isDateInPast "2025-12-05" ⟨⟨0, some pacificOffset⟩, ⟨2025, 12, 5⟩, 0, 2⟩ = false :=
  ⟨(claim_C5_amended "2025-12-05" ⟨2025, 12, 5⟩ ⟨0, some pacificOffset⟩
      ⟨99, some pacificOffset⟩ 0 43200 2 4).1,
   (claim_C5_amended "2025-12-05" ⟨2025, 12, 5⟩ ⟨0, some pacificOffset⟩
      ⟨99, some pacificOffset⟩ 0 43200 2 4).2 (by decide)⟩

/-! ## Claim C9 -/

/-- Claim C9 counterexample: the claim says the date parser maps
"Dec 05, 2025" to December 5, 2025, but `QUMonitor.parse_date` (a cited source
of the claim) accepts only numeric formats and maps it to "no date", unlike the
PQ monitor's parser. -/
theorem claim_C9_counterexample :
    quParseDate "Dec 05, 2025" = none ∧
    parseDatePQ "Dec 05, 2025" = some ⟨2025, 12, 5⟩ := by decide

/-- Claim C9 amended: the PQ monitor's parser maps "2025-12-05", "12/05/2025"
and "Dec 05, 2025" all to December 5, 2025 and maps "not-a-date" and empty text
to "no date" without raising; the QU variant's numeric-only parser agrees on
the first two strings and on the failure cases, but maps "Dec 05, 2025" to
"no date".  In both variants the callers treat "no date" as "condition does not
apply" (never past, never stale). -/
theorem claim_C9_amended :
    parseDatePQ "2025-12-05" = some ⟨2025, 12, 5⟩ ∧
    parseDatePQ "12/05/2025" = some ⟨2025, 12, 5⟩ ∧
    parseDatePQ "Dec 05, 2025" = some ⟨2025, 12, 5⟩ ∧
    parseDatePQ "not-a-date" = none ∧
    parseDatePQ "" = none ∧
    quParseDate "2025-12-05" = some ⟨2025, 12, 5⟩ ∧
    quParseDate "12/05/2025" = some ⟨2025, 12, 5⟩ ∧
    quParseDate "Dec 05, 2025" = none ∧
    quParseDate "" = none ∧
    (∀ now, isDateInPast "not-a-date" now = false) ∧
    (∀ now, quIsStale "not-a-date" now = false) := by
  have h1 : parseDatePQ "not-a-date" = none := by decide
  have h2 : quParseDate "not-a-date" = none := by decide
  refine ⟨by decide, by decide, by decide, h1, by decide, by decide, by decide,
    by decide, by decide, ?_, ?_⟩
  · intro now
    simp [isDateInPast, h1]
  · intro now
    simp [quIsStale, h2]

/-! ## Claim C6 -/

theorem getD_map_of_lt {α β : Type} (f : α → β) (l : List α) (i : Nat)
    (hi : i < l.length) (db : β) (da : α) :
    (l.map f).getD i db = f (l.getD i da) := by
  induction l generalizing i with
  | nil => simp at hi
  | cons a t ih =>
    cases i with
    | zero => simp
    | succ j =>
      simp only [List.map_cons, List.getD_cons_succ]
      exact ih j (by simpa using hi)

/-- Claim C6: the batched overdue message has exactly one line per recipient,
in recipient order: singular phrasing naming the single row when the recipient
has exactly one row, and plural phrasing listing the row numbers sorted
ascending and comma-joined otherwise. -/
theorem claim_C6_batched_message_lines (items : ItemsMap) (i : Nat)
    (hi : i < items.length) :
    (batchedMessageParts items).length = items.length ∧
    ((items.getD i ("", [])).2.length = 1 →
      (batchedMessageParts items).getD i "" =
        "<@" ++ (items.getD i ("", [])).1 ++ "> Please update your PQs: row " ++
          toString ((items.getD i ("", [])).2.headD 0) ++ " is out of date") ∧
    ((items.getD i ("", [])).2.length ≠ 1 →
      ∃ rs : List Nat, rs.Perm (items.getD i ("", [])).2 ∧
        rs.Sorted (· ≤ ·) ∧
        (batchedMessageParts items).getD i "" =
          "<@" ++ (items.getD i ("", [])).1 ++ "> Please update your PQs: rows " ++
            String.intercalate ", " (rs.map toString) ++ " are out of date") := by
  refine ⟨by simp [batchedMessageParts], ?_, ?_⟩
  · intro h1
    rw [batchedMessageParts, getD_map_of_lt _ items i hi _ ("", [])]
    simp only [h1, if_pos]
  · intro h1
    refine ⟨sortedAsc (items.getD i ("", [])).2,
      List.perm_insertionSort _ _, List.sorted_insertionSort _ _, ?_⟩
    rw [batchedMessageParts, getD_map_of_lt _ items i hi _ ("", [])]
    simp only [h1, if_neg, sortedAsc, ite_false]

/-- Witness for C6 on the specification's example mapping
`{U1: [5], U2: [3, 7]}`. -/
theorem claim_C6_batched_message_lines_witness :
    1 < ([("U1", [5]), ("U2", [3, 7])] : ItemsMap).length ∧
    (batchedMessageParts [("U1", [5]), ("U2", [3, 7])]).getD 0 "" =
      "<@" ++ "U1" ++ "> Please update your PQs: row " ++ toString (5 : Nat) ++
        " is out of date" ∧
    ∃ rs : List Nat, rs.Perm [3, 7] ∧ rs.Sorted (· ≤ ·) ∧
      (batchedMessageParts [("U1", [5]), ("U2", [3, 7])]).getD 1 "" =
        "<@" ++ "U2" ++ "> Please update your PQs: rows " ++
          String.intercalate ", " (rs.map toString) ++ " are out of date" :=
  ⟨by decide,
   (claim_C6_batched_message_lines [("U1", [5]), ("U2", [3, 7])] 0 (by decide)).2.1
     (by decide),
   (claim_C6_batched_message_lines [("U1", [5]), ("U2", [3, 7])] 1 (by decide)).2.2
     (by decide)⟩

/-! ## Claim C10 -/

theorem dropWhile_no_space (cs : List Char)
    (h : ∀ c ∈ cs, pyIsSpace c = false) : cs.dropWhile pyIsSpace = cs := by
  cases cs with
  | nil => rfl
  | cons c cs' => simp [List.dropWhile_cons, h c (by simp)]

theorem stripChars_of_no_space (cs : List Char)
    (h : ∀ c ∈ cs, pyIsSpace c = false) : stripChars cs = cs := by
  unfold stripChars
  rw [dropWhile_no_space cs h,
    dropWhile_no_space cs.reverse (fun c hc => h c (List.mem_reverse.mp hc)),
    List.reverse_reverse]

/-- Every token produced by Python's whitespace `split()` is whitespace-free. -/
theorem pySplitAux_no_space (cs : List Char) (acc : List Char)
    (hacc : ∀ c ∈ acc, pyIsSpace c = false) :
    ∀ t ∈ pySplitAux cs acc, ∀ c ∈ t.data, pyIsSpace c = false := by
  induction cs generalizing acc with
  | nil =>
    intro t ht c hc
    unfold pySplitAux at ht
    by_cases he : acc.isEmpty
    · rw [if_pos he] at ht
      exact absurd ht (List.not_mem_nil t)
    · rw [if_neg he] at ht
      have heq : t = ⟨acc.reverse⟩ := List.mem_singleton.mp ht
      subst heq
      exact hacc c (List.mem_reverse.mp hc)
  | cons a cs' ih =>
    intro t ht c hc
    unfold pySplitAux at ht
    by_cases hsp : pyIsSpace a = true
    · rw [if_pos hsp] at ht
      by_cases he : acc.isEmpty
      · rw [if_pos he] at ht
        exact ih [] (by simp) t ht c hc
      · rw [if_neg he] at ht
        rcases List.mem_cons.mp ht with h1 | h1
        · subst h1
          exact hacc c (List.mem_reverse.mp hc)
        · exact ih [] (by simp) t h1 c hc
    · rw [if_neg hsp] at ht
      refine ih (a :: acc) ?_ t ht c hc
      intro c' hc'
      rcases List.mem_cons.mp hc' with h' | h'
      · subst h'
        simpa using hsp
      · exact hacc c' h'

/-- `get_first_initials` returns exactly the first whitespace/comma-separated
token, uppercased (the `.strip()` it applies to the token is a no-op). -/
theorem getFirstInitials_eq_first_token_upper (s : String) :
    getFirstInitials s =
      (match pySplit (pyReplaceCommaSpace s) with
       | [] => ""
       | t :: _ => pyUpper t) := by
  by_cases hs : s = ""
  · subst hs; rfl
  · rw [getFirstInitials, if_neg hs]
    cases h : pySplit (pyReplaceCommaSpace s) with
    | nil => rfl
    | cons t ts =>
      have hmem : t ∈ pySplit (pyReplaceCommaSpace s) := h ▸ List.mem_cons_self t ts
      have hns : ∀ c ∈ t.data, pyIsSpace c = false :=
        pySplitAux_no_space (pyReplaceCommaSpace s).data [] (by simp) t hmem
      have hstrip : pyStrip t = t := by
        unfold pyStrip
        rw [stripChars_of_no_space t.data hns]
      simp [h, hstrip]

/-- Claim C10: in the QU variant only the first initials code of a cell is
considered, uppercased: two cells with the same first code classify a row
identically, and a row with an empty initials cell contributes nothing. -/
theorem claim_C10_first_initials_only (b b' cell : String) (now : NaiveNow)
    (h : getFirstInitials (pyStrip b) = getFirstInitials (pyStrip b')) :
    (∀ s, getFirstInitials s =
      (match pySplit (pyReplaceCommaSpace s) with
       | [] => ""
       | t :: _ => pyUpper t)) ∧
    quRowContribution ["", b, cell] now = quRowContribution ["", b', cell] now ∧
    (∀ cell' now', quRowContribution ["", "", cell'] now' = none) := by
  refine ⟨getFirstInitials_eq_first_token_upper, ?_, fun cell' now' => rfl⟩
  simp only [quRowContribution]
  rw [show (["", b, cell].getD 1 "") = b from rfl,
    show (["", b', cell].getD 1 "") = b' from rfl,
    show (["", b, cell].getD 2 "") = cell from rfl,
    show (["", b', cell].getD 2 "") = cell from rfl, h]

/-- Witness for C10: "js rd" and "JS, XY" share the first code JS and classify
a stale row identically; an empty initials cell is skipped. -/
theorem claim_C10_first_initials_only_witness :
    getFirstInitials (pyStrip "js rd") = getFirstInitials (pyStrip "JS, XY") ∧
    quRowContribution ["", "js rd", "2020-01-01"] ⟨⟨2025, 1, 8⟩, 0⟩ =
      quRowContribution ["", "JS, XY", "2020-01-01"] ⟨⟨2025, 1, 8⟩, 0⟩ ∧
    quRowContribution ["", "", "2020-01-01"] ⟨⟨2025, 1, 8⟩, 0⟩ = none :=
  ⟨by decide,
   (claim_C10_first_initials_only "js rd" "JS, XY" "2020-01-01" ⟨⟨2025, 1, 8⟩, 0⟩
     (by decide)).2.1,
   (claim_C10_first_initials_only "js rd" "JS, XY" "2020-01-01" ⟨⟨2025, 1, 8⟩, 0⟩
     (by decide)).2.2 "2020-01-01" ⟨⟨2025, 1, 8⟩, 0⟩⟩

/-! ## Characterization lemmas for the row sections -/

/-- The row number encoded in a per-row ledger key, if any. -/
def keyRowNum : Key → Option Nat
  | .row n => some n
  | .inReviewNoChecker n => some n
  | .overdueBatch => none
  | .other _ => none

theorem sec1_lookup (sn : SNFun) (oracle : Oracle) (nI : Int) (now : PacificNow)
    (c e f : String) (n : Nat) (wk : Bool) (st : Ledger) (k : Key)
    (hk : k ≠ Key.row n) :
    lookupKey (sec1 sn oracle nI now c e f n wk st).st k = lookupKey st k := by
  unfold sec1
  repeat' split
  all_goals simp [lookupKey_markNotified, lookupKey_clearRow, hk]

theorem sec1_sends (sn : SNFun) (oracle : Oracle) (nI : Int) (now : PacificNow)
    (c e f : String) (n : Nat) (wk : Bool) (st : Ledger) :
    ∀ p ∈ (sec1 sn oracle nI now c e f n wk st).sends,
      p = (Key.row n, oracle (Key.row n)) := by
  unfold sec1
  repeat' split
  all_goals intro p hp
  all_goals simp_all

theorem sec1_marks (sn : SNFun) (oracle : Oracle) (nI : Int) (now : PacificNow)
    (c e f : String) (n : Nat) (wk : Bool) (st : Ledger) :
    ∀ k ∈ (sec1 sn oracle nI now c e f n wk st).marks,
      k = Key.row n ∧ (k, true) ∈ (sec1 sn oracle nI now c e f n wk st).sends := by
  unfold sec1
  repeat' split
  all_goals intro k hk
  all_goals simp_all

theorem sec1_fail (sn : SNFun) (oracle : Oracle) (nI : Int) (now : PacificNow)
    (c e f : String) (n : Nat) (wk : Bool) (st : Ledger) (k : Key) :
    (k, false) ∈ (sec1 sn oracle nI now c e f n wk st).sends →
      (sec1 sn oracle nI now c e f n wk st).st = st := by
  unfold sec1
  repeat' split
  all_goals intro hp
  all_goals simp_all

theorem sec1_err (sn : SNFun) (oracle : Oracle) (nI : Int) (now : PacificNow)
    (c e f : String) (n : Nat) (wk : Bool) (st : Ledger) (er : PyErr) :
    (sec1 sn oracle nI now c e f n wk st).err = some er →
      (sec1 sn oracle nI now c e f n wk st).st = st ∧
      (sec1 sn oracle nI now c e f n wk st).sends = [] ∧
      (sec1 sn oracle nI now c e f n wk st).marks = [] ∧
      e = "" := by
  unfold sec1
  repeat' split
  all_goals intro hp
  all_goals simp_all

theorem sec1_weekend (sn : SNFun) (oracle : Oracle) (nI : Int) (now : PacificNow)
    (c e f : String) (n : Nat) (st : Ledger) :
    (sec1 sn oracle nI now c e f n true st).sends = [] ∧
    (sec1 sn oracle nI now c e f n true st).marks = [] ∧
    (sec1 sn oracle nI now c e f n true st).err = none := by
  unfold sec1
  repeat' split
  all_goals simp_all

theorem sec3_lookup (sn : SNFun) (oracle : Oracle) (nI : Int) (now : PacificNow)
    (c d g : String) (n : Nat) (wk : Bool) (st : Ledger) (k : Key)
    (hk : k ≠ Key.inReviewNoChecker n) :
    lookupKey (sec3 sn oracle nI now c d g n wk st).st k = lookupKey st k := by
  unfold sec3
  repeat' split
  all_goals simp [lookupKey_markNotified, lookupKey_clearRow, hk]

theorem sec3_sends (sn : SNFun) (oracle : Oracle) (nI : Int) (now : PacificNow)
    (c d g : String) (n : Nat) (wk : Bool) (st : Ledger) :
    ∀ p ∈ (sec3 sn oracle nI now c d g n wk st).sends,
      p = (Key.inReviewNoChecker n, oracle (Key.inReviewNoChecker n)) := by
  unfold sec3
  repeat' split
  all_goals intro p hp
  all_goals simp_all

theorem sec3_marks (sn : SNFun) (oracle : Oracle) (nI : Int) (now : PacificNow)
    (c d g : String) (n : Nat) (wk : Bool) (st : Ledger) :
    ∀ k ∈ (sec3 sn oracle nI now c d g n wk st).marks,
      k = Key.inReviewNoChecker n ∧
      (k, true) ∈ (sec3 sn oracle nI now c d g n wk st).sends := by
  unfold sec3
  repeat' split
  all_goals intro k hk
  all_goals simp_all

theorem sec3_fail (sn : SNFun) (oracle : Oracle) (nI : Int) (now : PacificNow)
    (c d g : String) (n : Nat) (wk : Bool) (st : Ledger) (k : Key) :
    (k, false) ∈ (sec3 sn oracle nI now c d g n wk st).sends →
      (sec3 sn oracle nI now c d g n wk st).st = st := by
  unfold sec3
  repeat' split
  all_goals intro hp
  all_goals simp_all

theorem sec3_weekend (sn : SNFun) (oracle : Oracle) (nI : Int) (now : PacificNow)
    (c d g : String) (n : Nat) (st : Ledger) :
    (sec3 sn oracle nI now c d g n true st).sends = [] ∧
    (sec3 sn oracle nI now c d g n true st).marks = [] ∧
    (sec3 sn oracle nI now c d g n true st).err = none := by
  unfold sec3
  repeat' split
  all_goals simp_all

theorem sec2_gate_false (now : PacificNow) (c d e g : String) (n : Nat)
    (items : ItemsMap) :
    sec2 now c d e g n false items = items := by
  unfold sec2
  repeat' split
  all_goals simp_all

/-! ## Characterization lemmas for `_process_row` -/

theorem pr_lookup (sn : SNFun) (oracle : Oracle) (nI : Int) (now : PacificNow)
    (row : List String) (n : Nat) (items : ItemsMap) (gate wk : Bool)
    (st : Ledger) (k : Key) (hk : keyRowNum k ≠ some n) :
    lookupKey (processRowGen sn oracle nI now row n items gate wk st).st k =
      lookupKey st k := by
  have hk1 : k ≠ Key.row n := by
    intro h; subst h; simp [keyRowNum] at hk
  have hk3 : k ≠ Key.inReviewNoChecker n := by
    intro h; subst h; simp [keyRowNum] at hk
  simp only [processRowGen]
  rcases herr : (sec1 sn oracle nI now (cellAt row 2) (cellAt row 4)
      (cellAt row 5) n wk st).err with _ | er
  · simp only [herr]
    rw [sec3_lookup _ _ _ _ _ _ _ _ _ _ _ hk3, sec1_lookup _ _ _ _ _ _ _ _ _ _ _ hk1]
  · simp only [herr]
    exact sec1_lookup _ _ _ _ _ _ _ _ _ _ _ hk1

theorem pr_sends (sn : SNFun) (oracle : Oracle) (nI : Int) (now : PacificNow)
    (row : List String) (n : Nat) (items : ItemsMap) (gate wk : Bool)
    (st : Ledger) (k : Key) (b : Bool) :
    (k, b) ∈ (processRowGen sn oracle nI now row n items gate wk st).sends →
      keyRowNum k = some n ∧ b = oracle k := by
  simp only [processRowGen]
  rcases herr : (sec1 sn oracle nI now (cellAt row 2) (cellAt row 4)
      (cellAt row 5) n wk st).err with _ | er
  · simp only [herr, List.mem_append]
    rintro (hp | hp)
    · have := sec1_sends _ _ _ _ _ _ _ _ _ _ _ hp
      rw [Prod.mk.injEq] at this
      obtain ⟨h1, h2⟩ := this
      subst h1
      exact ⟨rfl, h2⟩
    · have := sec3_sends _ _ _ _ _ _ _ _ _ _ _ hp
      rw [Prod.mk.injEq] at this
      obtain ⟨h1, h2⟩ := this
      subst h1
      exact ⟨rfl, h2⟩
  · simp only [herr]
    intro hp
    have := sec1_sends _ _ _ _ _ _ _ _ _ _ _ hp
    rw [Prod.mk.injEq] at this
    obtain ⟨h1, h2⟩ := this
    subst h1
    exact ⟨rfl, h2⟩

theorem pr_marks (sn : SNFun) (oracle : Oracle) (nI : Int) (now : PacificNow)
    (row : List String) (n : Nat) (items : ItemsMap) (gate wk : Bool)
    (st : Ledger) (k : Key) :
    k ∈ (processRowGen sn oracle nI now row n items gate wk st).marks →
      (k, true) ∈ (processRowGen sn oracle nI now row n items gate wk st).sends := by
  simp only [processRowGen]
  rcases herr : (sec1 sn oracle nI now (cellAt row 2) (cellAt row 4)
      (cellAt row 5) n wk st).err with _ | er
  · simp only [herr, List.mem_append]
    rintro (hm | hm)
    · exact Or.inl (sec1_marks _ _ _ _ _ _ _ _ _ _ _ hm).2
    · exact Or.inr (sec3_marks _ _ _ _ _ _ _ _ _ _ _ hm).2
  · simp only [herr]
    intro hm
    exact (sec1_marks _ _ _ _ _ _ _ _ _ _ _ hm).2

theorem pr_fail (sn : SNFun) (oracle : Oracle) (nI : Int) (now : PacificNow)
    (row : List String) (n : Nat) (items : ItemsMap) (gate wk : Bool)
    (st : Ledger) (k : Key) :
    (k, false) ∈ (processRowGen sn oracle nI now row n items gate wk st).sends →
      lookupKey (processRowGen sn oracle nI now row n items gate wk st).st k =
        lookupKey st k := by
  simp only [processRowGen]
  rcases herr : (sec1 sn oracle nI now (cellAt row 2) (cellAt row 4)
      (cellAt row 5) n wk st).err with _ | er
  · simp only [herr, List.mem_append]
    rintro (hp | hp)
    · have hk := sec1_sends _ _ _ _ _ _ _ _ _ _ _ hp
      rw [Prod.mk.injEq] at hk
      obtain ⟨h1, _⟩ := hk
      subst h1
      have hfix := sec1_fail _ _ _ _ _ _ _ _ _ _ _ hp
      rw [sec3_lookup _ _ _ _ _ _ _ _ _ _ _ (by simp), hfix]
    · have hk := sec3_sends _ _ _ _ _ _ _ _ _ _ _ hp
      rw [Prod.mk.injEq] at hk
      obtain ⟨h1, _⟩ := hk
      subst h1
      have hfix := sec3_fail _ _ _ _ _ _ _ _ _ _ _ hp
      rw [hfix, sec1_lookup _ _ _ _ _ _ _ _ _ _ _ (by simp)]
  · simp only [herr]
    intro hp
    have hk := sec1_sends _ _ _ _ _ _ _ _ _ _ _ hp
    rw [Prod.mk.injEq] at hk
    obtain ⟨h1, _⟩ := hk
    subst h1
    rw [sec1_fail _ _ _ _ _ _ _ _ _ _ _ hp]

theorem pr_weekend (sn : SNFun) (oracle : Oracle) (nI : Int) (now : PacificNow)
    (row : List String) (n : Nat) (items : ItemsMap) (st : Ledger) :
    (processRowGen sn oracle nI now row n items false true st).sends = [] ∧
    (processRowGen sn oracle nI now row n items false true st).marks = [] ∧
    (processRowGen sn oracle nI now row n items false true st).err = none ∧
    (processRowGen sn oracle nI now row n items false true st).items = items := by
  simp only [processRowGen]
  obtain ⟨hs1, hm1, he1⟩ := sec1_weekend sn oracle nI now (cellAt row 2)
    (cellAt row 4) (cellAt row 5) n st
  obtain ⟨hs3, hm3, he3⟩ := sec3_weekend sn oracle nI now (cellAt row 2)
    (cellAt row 3) (cellAt row 6) n
    (sec1 sn oracle nI now (cellAt row 2) (cellAt row 4) (cellAt row 5) n true st).st
  simp [he1, hs1, hm1, hs3, hm3, he3, sec2_gate_false]

/-! ## Characterization lemmas for the row loop -/

theorem rr_lookup (sn : SNFun) (oracle : Oracle) (nI : Int) (now : PacificNow)
    (gate wk : Bool) (rows : List (List String)) (n : Nat) (st : Ledger)
    (items : ItemsMap) (k : Key) (hk : ∀ m, keyRowNum k = some m → m < n) :
    lookupKey (runRows sn oracle nI now gate wk rows n st items).st k =
      lookupKey st k := by
  induction rows generalizing n st items with
  | nil => rfl
  | cons row rest ih =>
    have hkn : keyRowNum k ≠ some n := fun h => absurd (hk _ h) (Nat.lt_irrefl n)
    simp only [runRows]
    rcases herr : (processRowGen sn oracle nI now row n items gate wk st).err with _ | er
    · simp only [herr]
      rw [ih (n + 1) _ _ (fun m hm => Nat.lt_succ_of_lt (hk m hm)),
        pr_lookup _ _ _ _ _ _ _ _ _ _ _ hkn]
    · simp only [herr]
      exact pr_lookup _ _ _ _ _ _ _ _ _ _ _ hkn

theorem rr_sends (sn : SNFun) (oracle : Oracle) (nI : Int) (now : PacificNow)
    (gate wk : Bool) (rows : List (List String)) (n : Nat) (st : Ledger)
    (items : ItemsMap) (k : Key) (b : Bool) :
    (k, b) ∈ (runRows sn oracle nI now gate wk rows n st items).sends →
      b = oracle k ∧ ∃ m, keyRowNum k = some m ∧ n ≤ m := by
  induction rows generalizing n st items with
  | nil => intro hp; simp [runRows] at hp
  | cons row rest ih =>
    simp only [runRows]
    rcases herr : (processRowGen sn oracle nI now row n items gate wk st).err with _ | er
    · simp only [herr, List.mem_append]
      rintro (hp | hp)
      · obtain ⟨h1, h2⟩ := pr_sends _ _ _ _ _ _ _ _ _ _ _ _ hp
        exact ⟨h2, n, h1, Nat.le_refl n⟩
      · obtain ⟨h2, m, hm, hnm⟩ := ih (n + 1) _ _ hp
        exact ⟨h2, m, hm, Nat.le_of_succ_le hnm⟩
    · simp only [herr]
      intro hp
      obtain ⟨h1, h2⟩ := pr_sends _ _ _ _ _ _ _ _ _ _ _ _ hp
      exact ⟨h2, n, h1, Nat.le_refl n⟩

theorem rr_marks (sn : SNFun) (oracle : Oracle) (nI : Int) (now : PacificNow)
    (gate wk : Bool) (rows : List (List String)) (n : Nat) (st : Ledger)
    (items : ItemsMap) (k : Key) :
    k ∈ (runRows sn oracle nI now gate wk rows n st items).marks →
      (k, true) ∈ (runRows sn oracle nI now gate wk rows n st items).sends := by
  induction rows generalizing n st items with
  | nil => intro hm; simp [runRows] at hm
  | cons row rest ih =>
    simp only [runRows]
    rcases herr : (processRowGen sn oracle nI now row n items gate wk st).err with _ | er
    · simp only [herr, List.mem_append]
      rintro (hm | hm)
      · exact Or.inl (pr_marks _ _ _ _ _ _ _ _ _ _ _ hm)
      · exact Or.inr (ih (n + 1) _ _ hm)
    · simp only [herr]
      exact pr_marks _ _ _ _ _ _ _ _ _ _ _

theorem rr_fail (sn : SNFun) (oracle : Oracle) (nI : Int) (now : PacificNow)
    (gate wk : Bool) (rows : List (List String)) (n : Nat) (st : Ledger)
    (items : ItemsMap) (k : Key) :
    (k, false) ∈ (runRows sn oracle nI now gate wk rows n st items).sends →
      lookupKey (runRows sn oracle nI now gate wk rows n st items).st k =
        lookupKey st k := by
  induction rows generalizing n st items with
  | nil => intro hp; simp [runRows] at hp
  | cons row rest ih =>
    simp only [runRows]
    rcases herr : (processRowGen sn oracle nI now row n items gate wk st).err with _ | er
    · simp only [herr, List.mem_append]
      rintro (hp | hp)
      · obtain ⟨h1, _⟩ := pr_sends _ _ _ _ _ _ _ _ _ _ _ _ hp
        rw [rr_lookup sn oracle nI now gate wk rest (n + 1) _ _ k
          (fun m hm => by rw [h1] at hm; injection hm with hh; omega),
          pr_fail _ _ _ _ _ _ _ _ _ _ _ hp]
      · obtain ⟨_, m, hm, hnm⟩ := rr_sends sn oracle nI now gate wk rest (n + 1) _ _ k false hp
        rw [ih (n + 1) _ _ hp,
          pr_lookup _ _ _ _ _ _ _ _ _ _ _ (by rw [hm]; intro hc; injection hc with hh; omega)]
    · simp only [herr]
      exact pr_fail _ _ _ _ _ _ _ _ _ _ _

theorem rr_weekend (sn : SNFun) (oracle : Oracle) (nI : Int) (now : PacificNow)
    (rows : List (List String)) (n : Nat) (st : Ledger) (items : ItemsMap) :
    (runRows sn oracle nI now false true rows n st items).sends = [] ∧
    (runRows sn oracle nI now false true rows n st items).marks = [] ∧
    (runRows sn oracle nI now false true rows n st items).err = none ∧
    (runRows sn oracle nI now false true rows n st items).items = items := by
  induction rows generalizing n st items with
  | nil => exact ⟨rfl, rfl, rfl, rfl⟩
  | cons row rest ih =>
    obtain ⟨hs, hm, he, hi⟩ := pr_weekend sn oracle nI now row n items st
    simp only [runRows, he, hi, hs, hm]
    obtain ⟨hs', hm', he', hi'⟩ := ih (n + 1)
      (processRowGen sn oracle nI now row n items false true st).st items
    simp [hs', hm', he', hi']

/-! ## Claim C2 -/

/-- Claim C2: one PQ monitor evaluation cycle sends no Slack message and marks
no ledger key, for every spreadsheet content, ledger state and current time.
On a weekday (with data present) the cycle aborts at the shared overdue-gate
evaluation with the `NameError` raised by `should_notify`'s undefined name
`true`, before any row is processed (state and batch untouched), and the
cycle's catch-all handler swallows it; on a weekend every send path is
weekend-suppressed. -/
theorem claim_C2_pq_cycle_inert (oracle : Oracle) (nI oI : Int)
    (now : PacificNow) (rows : List (List String)) (st : Ledger) :
    (checkAndNotifyPQ oracle nI oI now rows st).sends = [] ∧
    (checkAndNotifyPQ oracle nI oI now rows st).marks = [] ∧
    (¬(now.weekday = 5 ∨ now.weekday = 6) → rows ≠ [] →
      (checkAndNotifyPQ oracle nI oI now rows st).err = some PyErr.nameError ∧
      (checkAndNotifyPQ oracle nI oI now rows st).st = st ∧
      (checkAndNotifyPQ oracle nI oI now rows st).items = []) := by
  unfold checkAndNotifyPQ checkAndNotifyGen
  by_cases hrows : rows.isEmpty
  · refine ⟨by simp [hrows], by simp [hrows], fun _ hne => ?_⟩
    exact absurd (List.isEmpty_iff.mp hrows) hne
  · by_cases hw : now.weekday = 5 ∨ now.weekday = 6
    · have hb : (decide (now.weekday = 5) || decide (now.weekday = 6)) = true := by
        rcases hw with h | h <;> simp [h]
      obtain ⟨hs, hm, he, hi⟩ := rr_weekend shouldNotifyPQ oracle nI now rows START_ROW st []
      simp only [hrows, hb, Bool.not_true, if_neg, Bool.false_eq_true, if_false,
        he, hi, hs, hm]
      refine ⟨by simp [hs], by simp [hm], fun hwd _ => absurd hw hwd⟩
    · have hb5 : ¬now.weekday = 5 := fun h => hw (Or.inl h)
      have hb6 : ¬now.weekday = 6 := fun h => hw (Or.inr h)
      simp [hrows, hb5, hb6, shouldNotifyPQ]

/-- Witness for C2 on a weekday with a nonempty sheet: the cycle swallows the
`NameError`, sends nothing, marks nothing and leaves the ledger unchanged. -/
theorem claim_C2_pq_cycle_inert_witness :
    (checkAndNotifyPQ (fun _ => true) 28800 28800
      ⟨⟨0, some pacificOffset⟩, ⟨2025, 12, 10⟩, 3600, 2⟩
      [["", "", "JS", "", "", "", ""]] []).sends = [] ∧
    (checkAndNotifyPQ (fun _ => true) 28800 28800
      ⟨⟨0, some pacificOffset⟩, ⟨2025, 12, 10⟩, 3600, 2⟩
      [["", "", "JS", "", "", "", ""]] []).marks = [] ∧
    (checkAndNotifyPQ (fun _ => true) 28800 28800
      ⟨⟨0, some pacificOffset⟩, ⟨2025, 12, 10⟩, 3600, 2⟩
      [["", "", "JS", "", "", "", ""]] []).err = some PyErr.nameError ∧
    (checkAndNotifyPQ (fun _ => true) 28800 28800
      ⟨⟨0, some pacificOffset⟩, ⟨2025, 12, 10⟩, 3600, 2⟩
      [["", "", "JS", "", "", "", ""]] []).st = [] ∧
    (checkAndNotifyPQ (fun _ => true) 28800 28800
      ⟨⟨0, some pacificOffset⟩, ⟨2025, 12, 10⟩, 3600, 2⟩
      [["", "", "JS", "", "", "", ""]] []).items = [] := by
  have h := claim_C2_pq_cycle_inert (fun _ => true) 28800 28800
    ⟨⟨0, some pacificOffset⟩, ⟨2025, 12, 10⟩, 3600, 2⟩
    [["", "", "JS", "", "", "", ""]] []
  obtain ⟨h1, h2, h3⟩ := h
  obtain ⟨h4, h5, h6⟩ := h3 (by decide) (by decide)
  exact ⟨h1, h2, h4, h5, h6⟩

/-! ## Claim C8 -/

/-- Claim C8: when the evaluation day is Saturday or Sunday in the reference
timezone, a cycle produces no notification at all — no send is attempted, no
ledger key is marked and no overdue-batch contribution is collected — whatever
the rows, the ledger state and the `should_notify` behaviour. -/
theorem claim_C8_weekend_suppression (sn : SNFun) (oracle : Oracle)
    (nI oI : Int) (now : PacificNow) (rows : List (List String)) (st : Ledger)
    (hw : now.weekday = 5 ∨ now.weekday = 6) :
    (checkAndNotifyGen sn oracle nI oI now rows st).sends = [] ∧
    (checkAndNotifyGen sn oracle nI oI now rows st).marks = [] ∧
    (checkAndNotifyGen sn oracle nI oI now rows st).items = [] := by
  unfold checkAndNotifyGen
  by_cases hrows : rows.isEmpty
  · simp [hrows]
  · have hb : (decide (now.weekday = 5) || decide (now.weekday = 6)) = true := by
      rcases hw with h | h <;> simp [h]
    obtain ⟨hs, hm, he, hi⟩ := rr_weekend sn oracle nI now rows START_ROW st []
    simp only [hrows, hb, Bool.not_true, if_neg, Bool.false_eq_true, if_false,
      he, hi, hs, hm]
    simp [hs, hm, hi]

/-- Witness for C8 on a Saturday with a row that would otherwise trigger every
rule. -/
theorem claim_C8_weekend_suppression_witness :
    ((⟨⟨0, some pacificOffset⟩, ⟨2025, 12, 13⟩, 3600, 5⟩ : PacificNow).weekday = 5 ∨
      (⟨⟨0, some pacificOffset⟩, ⟨2025, 12, 13⟩, 3600, 5⟩ : PacificNow).weekday = 6) ∧
    (checkAndNotifyGen (fun _ _ _ => Except.ok true) (fun _ => true) 0 0
      ⟨⟨0, some pacificOffset⟩, ⟨2025, 12, 13⟩, 3600, 5⟩
      [["", "", "JS", "", "2020-01-01", "", "In Review"]] []).sends = [] ∧
    (checkAndNotifyGen (fun _ _ _ => Except.ok true) (fun _ => true) 0 0
      ⟨⟨0, some pacificOffset⟩, ⟨2025, 12, 13⟩, 3600, 5⟩
      [["", "", "JS", "", "2020-01-01", "", "In Review"]] []).marks = [] ∧
    (checkAndNotifyGen (fun _ _ _ => Except.ok true) (fun _ => true) 0 0
      ⟨⟨0, some pacificOffset⟩, ⟨2025, 12, 13⟩, 3600, 5⟩
      [["", "", "JS", "", "2020-01-01", "", "In Review"]] []).items = [] := by
  have h := claim_C8_weekend_suppression (fun _ _ _ => Except.ok true)
    (fun _ => true) 0 0 ⟨⟨0, some pacificOffset⟩, ⟨2025, 12, 13⟩, 3600, 5⟩
    [["", "", "JS", "", "2020-01-01", "", "In Review"]] [] (Or.inl rfl)
  exact ⟨Or.inl rfl, h.1, h.2.1, h.2.2⟩

/-! ## Claim C7 -/

/-- Claim C7: a ledger key is marked only when the corresponding delivery call
reports success — every marked key had a successful send, every recorded send
outcome is the delivery collaborator's verdict for that key, a failed delivery
leaves that key's ledger entry unchanged, and the shared batch key is marked at
most once per cycle.  Proven for every `should_notify` behaviour, so it covers
the send-and-mark structure of pq_monitor.py lines 401-406, 434-443 and
489-498 independently of the broken gate. -/
theorem claim_C7_mark_only_on_success (sn : SNFun) (oracle : Oracle)
    (nI oI : Int) (now : PacificNow) (rows : List (List String)) (st : Ledger) :
    (∀ k, k ∈ (checkAndNotifyGen sn oracle nI oI now rows st).marks →
      (k, true) ∈ (checkAndNotifyGen sn oracle nI oI now rows st).sends) ∧
    (∀ k b, (k, b) ∈ (checkAndNotifyGen sn oracle nI oI now rows st).sends →
      b = oracle k) ∧
    (∀ k, (k, false) ∈ (checkAndNotifyGen sn oracle nI oI now rows st).sends →
      lookupKey (checkAndNotifyGen sn oracle nI oI now rows st).st k =
        lookupKey st k) ∧
    (checkAndNotifyGen sn oracle nI oI now rows st).marks.count
      Key.overdueBatch ≤ 1 := by
  unfold checkAndNotifyGen
  by_cases hrows : rows.isEmpty
  · simp [hrows]
  · simp only [hrows, Bool.false_eq_true, if_false]
    rcases hgate : (if !(decide (now.weekday = 5) || decide (now.weekday = 6))
        then sn st Key.overdueBatch oI else Except.ok false) with er | gate
    · simp [hgate]
    · simp only [hgate]
      have hnob : Key.overdueBatch ∉ (runRows sn oracle nI now gate
          (decide (now.weekday = 5) || decide (now.weekday = 6))
          rows START_ROW st []).marks := by
        intro hc
        have h1 := rr_marks _ _ _ _ _ _ _ _ _ _ _ hc
        obtain ⟨_, m, hm, _⟩ := rr_sends _ _ _ _ _ _ _ _ _ _ _ _ h1
        simp [keyRowNum] at hm
      rcases herr : (runRows sn oracle nI now gate
          (decide (now.weekday = 5) || decide (now.weekday = 6))
          rows START_ROW st []).err with _ | er
      · simp only [herr]
        by_cases hflush : (!(runRows sn oracle nI now gate
            (decide (now.weekday = 5) || decide (now.weekday = 6))
            rows START_ROW st []).items.isEmpty && gate) = true
        · simp only [hflush, if_true]
          by_cases hok : oracle Key.overdueBatch = true
          · simp only [hok, if_true]
            refine ⟨?_, ?_, ?_, ?_⟩
            · intro k hk
              rcases List.mem_append.mp hk with hk | hk
              · exact List.mem_append.mpr (Or.inl (rr_marks _ _ _ _ _ _ _ _ _ _ _ hk))
              · have hke : k = Key.overdueBatch := by simpa using hk
                subst hke
                exact List.mem_append.mpr (Or.inr (by simp))
            · intro k b hp
              rcases List.mem_append.mp hp with hp | hp
              · exact (rr_sends _ _ _ _ _ _ _ _ _ _ _ _ hp).1
              · have hpe : (k, b) = (Key.overdueBatch, true) := by simpa using hp
                rw [Prod.mk.injEq] at hpe
                obtain ⟨h1, h2⟩ := hpe
                subst h1; subst h2
                exact hok.symm
            · intro k hp
              rcases List.mem_append.mp hp with hp | hp
              · obtain ⟨_, m, hm, _⟩ := rr_sends _ _ _ _ _ _ _ _ _ _ _ _ hp
                have hkob : k ≠ Key.overdueBatch := by
                  intro hc; subst hc; simp [keyRowNum] at hm
                rw [lookupKey_markNotified, if_neg hkob]
                exact rr_fail _ _ _ _ _ _ _ _ _ _ _ hp
              · simp at hp
            · rw [List.count_append, List.count_eq_zero.mpr hnob]
              simp
          · simp only [hok, Bool.false_eq_true, if_false]
            refine ⟨?_, ?_, ?_, ?_⟩
            · intro k hk
              exact List.mem_append.mpr (Or.inl (rr_marks _ _ _ _ _ _ _ _ _ _ _ hk))
            · intro k b hp
              rcases List.mem_append.mp hp with hp | hp
              · exact (rr_sends _ _ _ _ _ _ _ _ _ _ _ _ hp).1
              · have hpe : (k, b) = (Key.overdueBatch, false) := by simpa using hp
                rw [Prod.mk.injEq] at hpe
                obtain ⟨h1, h2⟩ := hpe
                subst h1; subst h2
                exact (Bool.not_eq_true _).mp hok |>.symm
            · intro k hp
              rcases List.mem_append.mp hp with hp | hp
              · exact rr_fail _ _ _ _ _ _ _ _ _ _ _ hp
              · have hpe : k = Key.overdueBatch := by simpa using hp
                subst hpe
                exact rr_lookup _ _ _ _ _ _ _ _ _ _ _
                  (fun m hm => by simp [keyRowNum] at hm)
            · rw [List.count_eq_zero.mpr hnob]
              simp
        · simp only [hflush, Bool.false_eq_true, if_false]
          refine ⟨fun k hk => rr_marks _ _ _ _ _ _ _ _ _ _ _ hk,
            fun k b hp => (rr_sends _ _ _ _ _ _ _ _ _ _ _ _ hp).1,
            fun k hp => rr_fail _ _ _ _ _ _ _ _ _ _ _ hp, ?_⟩
          rw [List.count_eq_zero.mpr hnob]
          omega
      · simp only [herr]
        refine ⟨fun k hk => rr_marks _ _ _ _ _ _ _ _ _ _ _ hk,
          fun k b hp => (rr_sends _ _ _ _ _ _ _ _ _ _ _ _ hp).1,
          fun k hp => rr_fail _ _ _ _ _ _ _ _ _ _ _ hp, ?_⟩
        rw [List.count_eq_zero.mpr hnob]
        omega

/-- Witness for C7: a weekday cycle with a working `should_notify` and a
successful delivery marks the missing-ETA key it sent. -/
theorem claim_C7_mark_only_on_success_witness :
    Key.row 4 ∈ (checkAndNotifyGen (fun _ _ _ => Except.ok true) (fun _ => true)
      0 0 ⟨⟨0, some pacificOffset⟩, ⟨2025, 12, 10⟩, 3600, 2⟩
      [["", "", "JS", "", "", "", ""]] []).marks ∧
    (Key.row 4, true) ∈ (checkAndNotifyGen (fun _ _ _ => Except.ok true)
      (fun _ => true) 0 0 ⟨⟨0, some pacificOffset⟩, ⟨2025, 12, 10⟩, 3600, 2⟩
      [["", "", "JS", "", "", "", ""]] []).sends :=
  ⟨by decide,
   (claim_C7_mark_only_on_success (fun _ _ _ => Except.ok true) (fun _ => true)
     0 0 ⟨⟨0, some pacificOffset⟩, ⟨2025, 12, 10⟩, 3600, 2⟩
     [["", "", "JS", "", "", "", ""]] []).1 (Key.row 4) (by decide)⟩

/-! ## Claim C4 -/

/-- The overdue section with an open gate produces exactly the contribution the
specification's overdue rule describes: past ETA, status not "done", recipient
the reviewer when the status is "in review" and the assignee otherwise,
provided that identity is known and not the ignored CC code. -/
theorem sec2_gate_true (now : PacificNow) (c d e g : String) (n : Nat)
    (items : ItemsMap) :
    sec2 now c d e g n true items =
      (if isDateInPast e now = true ∧ pyLower g ≠ "done" ∧
          (if pyLower g = "in review" then d else c) ≠ "" ∧
          (if pyLower g = "in review" then d else c) ≠ "CC" then
        match USER_MAPPING.lookup (if pyLower g = "in review" then d else c) with
        | some uid => addOverdueItem items uid n
        | none => items
      else items) := by
  by_cases he : e = ""
  · simp [sec2, he, isDateInPast]
  · by_cases hpast : isDateInPast e now = true
    · by_cases hir : pyLower g = "in review"
      · have hnd : pyLower g ≠ "done" := by rw [hir]; decide
        by_cases hd0 : d = ""
        · simp [sec2, he, hpast, hir, knownUnignored, hd0, hnd]
        · by_cases hdcc : d = "CC"
          · simp [sec2, he, hpast, hir, knownUnignored, hd0, hdcc, hnd]
          · cases hlu : USER_MAPPING.lookup d with
            | some uid =>
              simp [sec2, he, hpast, hir, knownUnignored, hd0, hdcc, hnd, hlu]
            | none =>
              simp [sec2, he, hpast, hir, knownUnignored, hd0, hdcc, hnd, hlu]
      · by_cases hdone : pyLower g = "done"
        · simp [sec2, he, hpast, hir, hdone]
        · by_cases hc0 : c = ""
          · simp [sec2, he, hpast, hir, hdone, knownUnignored, hc0]
          · by_cases hccc : c = "CC"
            · simp [sec2, he, hpast, hir, hdone, knownUnignored, hc0, hccc]
            · cases hlu : USER_MAPPING.lookup c with
              | some uid =>
                simp [sec2, he, hpast, hir, hdone, knownUnignored, hc0, hccc, hlu]
              | none =>
                simp [sec2, he, hpast, hir, hdone, knownUnignored, hc0, hccc, hlu]
    · simp [sec2, he, hpast]

/-- Claim C4: in a weekday cycle whose shared overdue gate is open, processing
a row adds an overdue contribution `(recipient, row_number)` exactly when the
ETA cell is a calendar date strictly before today (reference zone) and the
status is not "done" (case-insensitive); the recipient is the reviewer cell
when the status is "in review" and the assignee cell otherwise, provided the
cell is a known identity and not the ignored CC code.  In particular a row with
a past ETA and status "done" contributes nothing. -/
theorem claim_C4_overdue_rule (sn : SNFun) (oracle : Oracle) (nI : Int)
    (now : PacificNow) (row : List String) (n : Nat) (items : ItemsMap)
    (st : Ledger) :
    (processRowGen sn oracle nI now row n items true false st).items =
      (if isDateInPast (cellAt row 4) now = true ∧
          pyLower (cellAt row 6) ≠ "done" ∧
          (if pyLower (cellAt row 6) = "in review" then cellAt row 3
            else cellAt row 2) ≠ "" ∧
          (if pyLower (cellAt row 6) = "in review" then cellAt row 3
            else cellAt row 2) ≠ "CC" then
        match USER_MAPPING.lookup (if pyLower (cellAt row 6) = "in review"
            then cellAt row 3 else cellAt row 2) with
        | some uid => addOverdueItem items uid n
        | none => items
      else items) := by
  simp only [processRowGen]
  rcases herr : (sec1 sn oracle nI now (cellAt row 2) (cellAt row 4)
      (cellAt row 5) n false st).err with _ | er
  · simp only [herr]
    exact sec2_gate_true now (cellAt row 2) (cellAt row 3) (cellAt row 4)
      (cellAt row 6) n items
  · simp only [herr]
    obtain ⟨_, _, _, he⟩ := sec1_err _ _ _ _ _ _ _ _ _ _ _ herr
    rw [he]
    simp [isDateInPast]

end PQs
